import Mathlib

/-!
Verification of the Turkish transcriber pipeline.

Shallow embedding of the program's core functions:
* `src/postprocess.rs` — Turkish post-processing passes (on `List Char`,
  mirroring Rust `&str` operations character-wise),
* `src/audio.rs` — resampling, downmix and duration validation (samples
  and durations are modelled as exact rationals; the source computes in
  f32/f64, which this development idealises as exact arithmetic),
* `src/model.rs` — model resolution, download, size check, retry loop
  (filesystem / HTTP effects are modelled by an explicit environment and
  an event trace),
* `src/transcribe.rs` — segment collection/filtering and output writing,
* `src/errors.rs` — error taxonomy and exit-code classification.
-/

namespace TurkishTranscriber

/- ── Character-level utilities shared by the string passes ──────────── -/

/-- Unicode `White_Space` property, as used by Rust's `char::is_whitespace`
(and hence `str::trim_end` / `str::trim`).  The full code-point list. -/
def isRustWhitespace (c : Char) : Bool :=
  let n := c.toNat
  n == 0x9 || n == 0xA || n == 0xB || n == 0xC || n == 0xD || n == 0x20 ||
  n == 0x85 || n == 0xA0 || n == 0x1680 || (0x2000 ≤ n && n ≤ 0x200A) ||
  n == 0x2028 || n == 0x2029 || n == 0x202F || n == 0x205F || n == 0x3000

/-- One step of Rust `str::to_lowercase`, restricted to Basic Latin,
Latin-1 Supplement and the Latin Extended-A letters used by Turkish
(`Ğ`, `İ`, `Ş`); all other characters are mapped to themselves.  `İ`
lowercases to `i` followed by U+0307 (combining dot above), exactly as in
the Unicode special-casing table used by Rust. -/
def toLowerChars (c : Char) : List Char :=
  if 'A' ≤ c && c ≤ 'Z' then [Char.ofNat (c.toNat + 32)]
  else if c.toNat == 0x130 then [Char.ofNat 0x69, Char.ofNat 0x307]
  else if (0xC0 ≤ c.toNat && c.toNat ≤ 0xDE && c.toNat != 0xD7) then
    [Char.ofNat (c.toNat + 32)]
  else if c.toNat == 0x11E then [Char.ofNat 0x11F]
  else if c.toNat == 0x15E then [Char.ofNat 0x15F]
  else [c]

/-- Rust `str::to_lowercase` (restricted as in `toLowerChars`; the Greek
final-sigma context rule is irrelevant to this program's data). -/
def lowerL (l : List Char) : List Char := (l.map toLowerChars).flatten

/-- Rust `str::trim_end`: drop trailing Unicode whitespace. -/
def trimRightL (l : List Char) : List Char :=
  (l.reverse.dropWhile isRustWhitespace).reverse

/-- Rust `str::trim`: drop leading and trailing Unicode whitespace. -/
def trimL (l : List Char) : List Char :=
  trimRightL (l.dropWhile isRustWhitespace)

/- ── postprocess.rs ─────────────────────────────────────────────────── -/

/-- The punctuation set stripped by `fix_question_marks`
(`matches!(c, '.' | '!' | ',' | ';' | ':')`). -/
def isStrippedPunct (c : Char) : Bool :=
  c == '.' || c == '!' || c == ',' || c == ';' || c == ':'

/-- The `trimmed.trim_end_matches(|c| matches!(c, '.' | '!' | ',' | ';' | ':'))`. -/
def stripPunctL (l : List Char) : List Char :=
  (l.reverse.dropWhile isStrippedPunct).reverse

/-- The `QUESTION_PARTICLES` from `postprocess.rs`, in source order
(extended forms first, base forms last). -/
def QUESTION_PARTICLES : List (List Char) :=
  ["mısınız".toList, "misiniz".toList, "musunuz".toList, "müsünüz".toList,
   "mıyız".toList, "miyiz".toList, "muyuz".toList, "müyüz".toList,
   "mısın".toList, "misin".toList, "musun".toList, "müsün".toList,
   "mıdır".toList, "midir".toList, "mudur".toList, "müdür".toList,
   "mı".toList, "mi".toList, "mu".toList, "mü".toList]

/-- The per-particle test of the source loop: the particle is a suffix of
the lowercased text and is preceded by whitespace or the string start. -/
def standaloneSuffixB (p lower : List Char) : Bool :=
  p.isSuffixOf lower &&
    (let before := lower.take (lower.length - p.length)
     before.isEmpty || (before.getLast?.any isRustWhitespace))

/-- The `for particle in QUESTION_PARTICLES` loop of `fix_question_marks`:
on the first particle that is a standalone suffix of `lower` (the source's
two nested `if`s, combined in `standaloneSuffixB`), return
`&stripped[..particle_start + particle.len()]` with `?` appended (the
source computes the slice bounds in bytes; only their sum, the full
length of `stripped`, is ever used, so character counts are faithful). -/
def qLoop (stripped lower : List Char) : List (List Char) → Option (List Char)
  | [] => none
  | p :: ps =>
    if standaloneSuffixB p lower then
      some (stripped.take ((stripped.length - p.length) + p.length) ++ ['?'])
    else qLoop stripped lower ps

/-- The `fix_question_marks` from `postprocess.rs`. -/
def fix_question_marks (text : List Char) : List Char :=
  let trimmed := trimRightL text
  if trimmed.getLast? = some '?' then text
  else
    let stripped := stripPunctL trimmed
    let lower := lowerL stripped
    match qLoop stripped lower QUESTION_PARTICLES with
    | some r => r
    | none => text

/-- Worker for `replaceL`: `skip` counts characters of a matched pattern
occurrence still to be consumed without rescanning. -/
def replaceGo (pat rep : List Char) : List Char → ℕ → List Char
  | [], _ => []
  | _ :: rest, skip + 1 => replaceGo pat rep rest skip
  | c :: rest, 0 =>
    if pat.isPrefixOf (c :: rest) then
      rep ++ replaceGo pat rep rest (pat.length - 1)
    else c :: replaceGo pat rep rest 0

/-- Rust `str::replace(pat, rep)`: replace every non-overlapping occurrence
of `pat`, scanning left to right.  (For the empty pattern — never used by
this program — Rust would also insert `rep` at the end of the string; this
model omits that final insertion.) -/
def replaceL (pat rep l : List Char) : List Char := replaceGo pat rep l 0

/-- The `REPLACEMENTS` from `postprocess.rs`. -/
def REPLACEMENTS : List (List Char × List Char) :=
  [("göğlen".toList, "görülen".toList),
   ("göğünmeyen".toList, "görünmeyen".toList),
   ("göğlü".toList, "görülü".toList),
   ("bilepini".toList, "deneyimini".toList)]

/-- The `fix_substitutions` from `postprocess.rs`. -/
def fix_substitutions (text : List Char) : List Char :=
  REPLACEMENTS.foldl (fun acc pr => replaceL pr.1 pr.2 acc) text

/-- The `CHAR_FIXES` from `postprocess.rs`. -/
def CHAR_FIXES : List (List Char × List Char) :=
  [("hültür".toList, "kültür".toList),
   ("kültüğü".toList, "kültürü".toList)]

/-- The `fix_turkish_chars` from `postprocess.rs`. -/
def fix_turkish_chars (text : List Char) : List Char :=
  CHAR_FIXES.foldl (fun acc pr => replaceL pr.1 pr.2 acc) text

/-- The `PROPER_NOUNS` from `postprocess.rs`. -/
def PROPER_NOUNS : List (List Char × List Char) :=
  [("Peter Dubek".toList, "Peter Drucker".toList),
   ("Aydigur Şahina".toList, "Edgar Schein".toList),
   ("Antağı de Sen".toList, "Antoine de Saint".toList)]

/-- The `fix_proper_nouns` from `postprocess.rs`. -/
def fix_proper_nouns (text : List Char) : List Char :=
  PROPER_NOUNS.foldl (fun acc pr => replaceL pr.1 pr.2 acc) text

/-- The `process` from `postprocess.rs`: the four passes in source order. -/
def process (text : String) : String :=
  String.mk (fix_question_marks (fix_turkish_chars (fix_proper_nouns
    (fix_substitutions text.toList))))

/-- The question-particle pass exactly as the claim words it (no
whitespace trimming anywhere): modelled from the spec sentence for
comparison with the source's `fix_question_marks`. -/
def fixQuestionClaimed (text : List Char) : List Char :=
  if text.getLast? = some '?' then text
  else
    let stripped := stripPunctL text
    let lower := lowerL stripped
    if QUESTION_PARTICLES.any (fun p => standaloneSuffixB p lower) then
      stripped ++ ['?']
    else text

/-- The question-particle pass as the amended claim words it: the text is
first right-trimmed of whitespace; the `?` test, punctuation stripping and
particle match all run on the trimmed text; on a match the stripped text
with `?` appended is returned, otherwise the original text. -/
def fixQuestionAmended (text : List Char) : List Char :=
  let trimmed := trimRightL text
  if trimmed.getLast? = some '?' then text
  else
    let stripped := stripPunctL trimmed
    let lower := lowerL stripped
    if QUESTION_PARTICLES.any (fun p => standaloneSuffixB p lower) then
      stripped ++ ['?']
    else text

/- ── Lemmas about the particle loop ─────────────────────────────────── -/

theorem take_sub_add_self (l : List α) (k : ℕ) :
    l.take ((l.length - k) + k) = l :=
  List.take_of_length_le (by omega)

theorem qLoop_eq_any (stripped lower : List Char) :
    ∀ ps : List (List Char),
      qLoop stripped lower ps =
        if ps.any (fun p => standaloneSuffixB p lower) then
          some (stripped ++ ['?'])
        else none
  | [] => rfl
  | p :: ps => by
    have ih := qLoop_eq_any stripped lower ps
    cases hs : standaloneSuffixB p lower with
    | true => simp [qLoop, hs, take_sub_add_self]
    | false => simp [qLoop, hs, ih]

theorem fix_question_marks_eq_amended (text : List Char) :
    fix_question_marks text = fixQuestionAmended text := by
  unfold fix_question_marks fixQuestionAmended
  by_cases h : (trimRightL text).getLast? = some '?'
  · simp [h]
  · simp only [h, if_false]
    rw [qLoop_eq_any]
    cases hm : QUESTION_PARTICLES.any
        (fun p => standaloneSuffixB p (lowerL (stripPunctL (trimRightL text)))) with
    | true => simp [hm]
    | false => simp [hm]

/- ── C1 ─────────────────────────────────────────────────────────────── -/

/-- C1 counterexample: on the input `"mu "` (trailing space) the claim's
question-particle description returns the text unchanged — the trailing
space is not in the stripped punctuation set, so per the claim no particle
is a trailing token — but the source first right-trims whitespace and so
appends `?`, producing `"mu?"`. -/
theorem C1_counterexample :
    process "mu " = "mu?" ∧
    fixQuestionClaimed "mu ".toList = "mu ".toList ∧
    fix_question_marks "mu ".toList = "mu?".toList ∧
    ("mu?".toList : List Char) ≠ "mu ".toList := by
  refine ⟨by decide, by decide, by decide, by decide⟩

/-- C1 (amended): `process` is a pure total function applying exactly the
four passes in the fixed source order — literal substitutions, proper
nouns, character normalization, then the question-particle pass — and the
question-particle pass first right-trims trailing whitespace, returns the
text unchanged when the trimmed text already ends in `?`, otherwise strips
trailing punctuation from `{. ! , ; :}`, lower-cases the result for
matching only, and, when the result ends with one of the fixed Turkish
question particles (listed in descending length order) as a standalone
trailing token, returns the stripped text with `?` appended (discarding
the trimmed whitespace and stripped punctuation); otherwise it returns the
text unchanged. -/
theorem C1_theorem :
    (∀ t : String,
      process t = String.mk (fix_question_marks (fix_turkish_chars
        (fix_proper_nouns (fix_substitutions t.toList))))) ∧
    (∀ l : List Char, fix_question_marks l = fixQuestionAmended l) ∧
    QUESTION_PARTICLES.Pairwise (fun a b => b.length ≤ a.length) := by
  refine ⟨fun t => rfl, fix_question_marks_eq_amended, by decide⟩

/- ── errors.rs ──────────────────────────────────────────────────────── -/

/-- The `AudioError` from `errors.rs`.  `io::Error` sources and f64 payloads are
modelled as `String` and `ℚ` respectively. -/
inductive AudioError where
  | FileOpen (path : String) (sourceMsg : String)
  | UnsupportedFormat
  | NoTrack
  | UnsupportedCodec
  | DecodeError (msg : String)
  | EmptyAudio
  | TooShort (seconds : ℚ)
  | TooLong (hours : ℚ)
deriving DecidableEq

/-- The `ModelError` from `errors.rs`. -/
inductive ModelError where
  | NoCacheDir
  | InsufficientDiskSpace
  | DownloadFailed (attempts : ℕ) (reason : String)
  | HttpError (status : ℕ) (url : String)
  | Timeout (seconds : ℕ)
  | FileTooSmall (size : ℕ) (expected : ℕ) (model : String)
  | LoadFailed (msg : String)
  | InvalidPath (path : String)
  | CacheDirCreation (path : String) (sourceMsg : String)
  | RenameFailed (msg : String)
deriving DecidableEq

/-- The `TranscriptionError` from `errors.rs`. -/
inductive TranscriptionError where
  | StateCreation
  | InferenceFailed
  | SegmentRead
  | InvalidTimestamp (index : ℤ) (t0 : ℤ) (t1 : ℤ)
deriving DecidableEq

/-- The `OutputError` from `errors.rs`. -/
inductive OutputError where
  | FileCreate (path : String) (sourceMsg : String)
  | WriteFailed (msg : String)
deriving DecidableEq

/- ── audio.rs ───────────────────────────────────────────────────────── -/

def WHISPER_SAMPLE_RATE : ℕ := 16000

def MIN_AUDIO_SECONDS : ℚ := 1/2

def MAX_AUDIO_HOURS : ℚ := 4

/-- The `resample` from `audio.rs`.  Samples and the intermediate f64
arithmetic are modelled as exact rationals; `src as usize` is `⌊src⌋`
(`src ≥ 0` always); Rust's panicking index `input[idx]` is `getD` (the
indices are in bounds whenever the loop runs).  Division by zero in ℚ
yields 0, so a zero rate yields an empty output, where the source's f64
would produce an infinite ratio and likewise an empty output for
`to_rate = 0`. -/
def resample (input : List ℚ) (from_rate to_rate : ℕ) : List ℚ :=
  if input = [] ∨ from_rate = to_rate then input
  else
    let ratio : ℚ := (from_rate : ℚ) / (to_rate : ℚ)
    let out_len : ℕ := (⌈(input.length : ℚ) / ratio⌉).toNat
    (List.range out_len).map (fun (i : ℕ) =>
      let src : ℚ := (i : ℚ) * ratio
      let idx : ℕ := (⌊src⌋).toNat
      let frac : ℚ := src - (idx : ℚ)
      if idx + 1 < input.length then
        input.getD idx 0 * (1 - frac) + input.getD (idx + 1) 0 * frac
      else
        input.getD (min idx (input.length - 1)) 0)

/-- Rust slice `chunks(ch)`: consecutive sub-lists of length `ch`, the
last possibly shorter.  (`chunks(0)` panics in Rust and never occurs in
the source, where `ch` is a channel count ≥ 1; this model returns `[]`.) -/
def chunksL (ch : ℕ) (l : List ℚ) : List (List ℚ) :=
  if h : ch = 0 ∨ l = [] then [] else
    l.take ch :: chunksL ch (l.drop ch)
termination_by l.length
decreasing_by
  push_neg at h
  rcases l with _ | ⟨a, l⟩
  · exact absurd rfl h.2
  · simp [List.length_drop]; omega

/-- The downmix loop of `load_audio` (`audio.rs` lines 100-102): for each
interleaved frame of `ch` channel samples, push the arithmetic mean. -/
def downmix (samples : List ℚ) (ch : ℕ) : List ℚ :=
  (chunksL ch samples).map (fun chunk => chunk.sum / (ch : ℚ))

/-- The post-decode validation of `load_audio` (`audio.rs` lines 118-146).
The `Bool` in the success value records whether the non-fatal
"audio is very short" warning (`duration_secs < 1.0`) fires. -/
def validate_audio (pcm : List ℚ) : Except AudioError (Bool × List ℚ) :=
  if pcm = [] then .error .EmptyAudio
  else
    let duration_secs : ℚ := (pcm.length : ℚ) / (WHISPER_SAMPLE_RATE : ℚ)
    if duration_secs < MIN_AUDIO_SECONDS then .error (.TooShort duration_secs)
    else
      let duration_hours : ℚ := duration_secs / 3600
      if duration_hours > MAX_AUDIO_HOURS then .error (.TooLong duration_hours)
      else .ok (duration_secs < 1, pcm)

/-- Matches the `TooShort` constructor of a validation result. -/
def isTooShort : Except AudioError (Bool × List ℚ) → Bool
  | .error (.TooShort _) => true
  | _ => false

/-- Matches the `TooLong` constructor of a validation result. -/
def isTooLong : Except AudioError (Bool × List ℚ) → Bool
  | .error (.TooLong _) => true
  | _ => false

/-- Matches a successful validation result. -/
def isOkValidation : Except AudioError (Bool × List ℚ) → Bool
  | .ok _ => true
  | _ => false

/- ── C2 ─────────────────────────────────────────────────────────────── -/

/-- C2: resampling with equal rates or an empty input is the identity;
otherwise the output length is `⌈len·to/from⌉` and entry `i` is the
linear interpolation between `input[⌊i·from/to⌋]` and its successor
weighted by the fractional part, clamped to the last sample at the
buffer end. -/
theorem C2_theorem (input : List ℚ) (from_rate to_rate : ℕ) :
    ((input = [] ∨ from_rate = to_rate) →
      resample input from_rate to_rate = input) ∧
    (input ≠ [] → from_rate ≠ to_rate →
      (resample input from_rate to_rate).length =
        (⌈(input.length : ℚ) * (to_rate : ℚ) / (from_rate : ℚ)⌉).toNat ∧
      ∀ i : ℕ, i < (resample input from_rate to_rate).length →
        (resample input from_rate to_rate).getD i 0 =
          (let src : ℚ := (i : ℚ) * ((from_rate : ℚ) / (to_rate : ℚ))
           let idx : ℕ := (⌊src⌋).toNat
           let frac : ℚ := src - (idx : ℚ)
           if idx + 1 < input.length then
             input.getD idx 0 * (1 - frac) + input.getD (idx + 1) 0 * frac
           else
             input.getD (input.length - 1) 0)) := by
  constructor
  · intro h
    rw [resample, if_pos h]
  · intro h1 h2
    have hcond : ¬(input = [] ∨ from_rate = to_rate) := by
      push_neg; exact ⟨h1, h2⟩
    have hlen2 : (input.length : ℚ) / ((from_rate : ℚ) / (to_rate : ℚ)) =
        (input.length : ℚ) * (to_rate : ℚ) / (from_rate : ℚ) := by
      rw [div_div_eq_mul_div]
    have hre : resample input from_rate to_rate =
        (List.range ((⌈(input.length : ℚ) /
            ((from_rate : ℚ) / (to_rate : ℚ))⌉).toNat)).map
          (fun (i : ℕ) =>
            let src : ℚ := (i : ℚ) * ((from_rate : ℚ) / (to_rate : ℚ))
            let idx : ℕ := (⌊src⌋).toNat
            let frac : ℚ := src - (idx : ℚ)
            if idx + 1 < input.length then
              input.getD idx 0 * (1 - frac) + input.getD (idx + 1) 0 * frac
            else input.getD (min idx (input.length - 1)) 0) := by
      rw [resample, if_neg hcond]
    constructor
    · rw [hre, List.length_map, List.length_range, hlen2]
    · intro i hi
      rw [hre, List.length_map, List.length_range] at hi
      rw [hre, List.getD_eq_getElem?_getD, List.getElem?_map,
        List.getElem?_range hi]
      simp only [Option.map_some', Option.getD_some]
      by_cases hb : (⌊(i : ℚ) * ((from_rate : ℚ) / (to_rate : ℚ))⌋).toNat
          + 1 < input.length
      · rw [if_pos hb, if_pos hb]
      · have hmin : min ((⌊(i : ℚ) *
            ((from_rate : ℚ) / (to_rate : ℚ))⌋).toNat)
            (input.length - 1) = input.length - 1 := by omega
        rw [if_neg hb, hmin, if_neg hb]

/-- C2 witness: upsampling `[1, 3]` from rate 1 to rate 2 gives 4
samples, and the interpolated sample at index 1 is the midpoint 2. -/
theorem C2_witness :
    ([(1 : ℚ), 3] ≠ []) ∧ ((1 : ℕ) ≠ 2) ∧
    (resample [(1 : ℚ), 3] 1 2).length =
      (⌈(([(1 : ℚ), 3].length) : ℚ) * (2 : ℚ) / (1 : ℚ)⌉).toNat ∧
    (1 : ℕ) < (resample [(1 : ℚ), 3] 1 2).length ∧
    (resample [(1 : ℚ), 3] 1 2).getD 1 0 = 2 := by
  have hlen := ((C2_theorem [(1 : ℚ), 3] 1 2).2 (by simp) (by omega)).1
  have hlt : (1 : ℕ) < (resample [(1 : ℚ), 3] 1 2).length := by
    rw [hlen]
    norm_num
  refine ⟨by simp, by omega, hlen, hlt, ?_⟩
  have hv := ((C2_theorem [(1 : ℚ), 3] 1 2).2 (by simp) (by omega)).2 1 hlt
  rw [hv]
  norm_num [List.getD]

/- ── C5 ─────────────────────────────────────────────────────────────── -/

/-- C5: validation fails with `EmptyAudio` exactly on the empty buffer,
with `TooShort` exactly on a non-empty buffer shorter than 0.5 s (8000
samples at 16 kHz), with `TooLong` exactly above 4 h (230 400 000
samples); both boundaries are accepted, and a duration below 1 s is
accepted with only the non-fatal warning flag set. -/
theorem C5_theorem (pcm : List ℚ) :
    (validate_audio pcm = .error .EmptyAudio ↔ pcm = []) ∧
    (isTooShort (validate_audio pcm) = true ↔
      pcm ≠ [] ∧ pcm.length < 8000) ∧
    (isTooLong (validate_audio pcm) = true ↔ 230400000 < pcm.length) ∧
    (isOkValidation (validate_audio pcm) = true ↔
      8000 ≤ pcm.length ∧ pcm.length ≤ 230400000) ∧
    (validate_audio pcm = .ok (true, pcm) ↔
      8000 ≤ pcm.length ∧ pcm.length < 16000) := by
  have h16 : ((WHISPER_SAMPLE_RATE : ℕ) : ℚ) = 16000 := by
    norm_num [WHISPER_SAMPLE_RATE]
  have hshort : ((pcm.length : ℚ) / (WHISPER_SAMPLE_RATE : ℚ) <
      MIN_AUDIO_SECONDS) ↔ pcm.length < 8000 := by
    rw [h16, MIN_AUDIO_SECONDS,
      div_lt_iff₀ (by norm_num : (0 : ℚ) < 16000)]
    norm_num
  have hlong : (((pcm.length : ℚ) / (WHISPER_SAMPLE_RATE : ℚ)) / 3600 >
      MAX_AUDIO_HOURS) ↔ 230400000 < pcm.length := by
    rw [h16, MAX_AUDIO_HOURS, div_div, gt_iff_lt,
      lt_div_iff₀ (by norm_num : (0 : ℚ) < 16000 * 3600)]
    norm_num
  have hwarn : ((pcm.length : ℚ) / (WHISPER_SAMPLE_RATE : ℚ) < 1) ↔
      pcm.length < 16000 := by
    rw [h16, div_lt_iff₀ (by norm_num : (0 : ℚ) < 16000)]
    norm_num
  by_cases hemp : pcm = []
  · subst hemp
    refine ⟨by simp [validate_audio], ?_, ?_, ?_, ?_⟩ <;>
      simp [validate_audio, isTooShort, isTooLong, isOkValidation]
  · by_cases hs : pcm.length < 8000
    · have hs' : (pcm.length : ℚ) / (WHISPER_SAMPLE_RATE : ℚ) <
          MIN_AUDIO_SECONDS := hshort.mpr hs
      have heq : validate_audio pcm =
          .error (.TooShort ((pcm.length : ℚ) / (WHISPER_SAMPLE_RATE : ℚ))) := by
        rw [validate_audio, if_neg hemp, if_pos hs']
      rw [heq]
      refine ⟨?_, ?_, ?_, ?_, ?_⟩ <;>
        simp [isTooShort, isTooLong, isOkValidation, hemp, hs] <;> omega
    · have hs' : ¬((pcm.length : ℚ) / (WHISPER_SAMPLE_RATE : ℚ) <
          MIN_AUDIO_SECONDS) := fun c => hs (hshort.mp c)
      by_cases hl : 230400000 < pcm.length
      · have hl' : ((pcm.length : ℚ) / (WHISPER_SAMPLE_RATE : ℚ)) / 3600 >
            MAX_AUDIO_HOURS := hlong.mpr hl
        have heq : validate_audio pcm =
            .error (.TooLong (((pcm.length : ℚ) /
              (WHISPER_SAMPLE_RATE : ℚ)) / 3600)) := by
          rw [validate_audio, if_neg hemp, if_neg hs', if_pos hl']
        rw [heq]
        refine ⟨?_, ?_, ?_, ?_, ?_⟩ <;>
          simp [isTooShort, isTooLong, isOkValidation, hemp, hl] <;> omega
      · have hl' : ¬(((pcm.length : ℚ) / (WHISPER_SAMPLE_RATE : ℚ)) / 3600 >
            MAX_AUDIO_HOURS) := fun c => hl (hlong.mp c)
        have heq : validate_audio pcm =
            .ok (decide ((pcm.length : ℚ) / (WHISPER_SAMPLE_RATE : ℚ) < 1),
              pcm) := by
          rw [validate_audio, if_neg hemp, if_neg hs', if_neg hl']
        have hw : (decide ((pcm.length : ℚ) / (WHISPER_SAMPLE_RATE : ℚ) < 1))
            = decide (pcm.length < 16000) := decide_eq_decide.mpr hwarn
        rw [heq, hw]
        refine ⟨?_, ?_, ?_, ?_, ?_⟩ <;>
          simp [isTooShort, isTooLong, isOkValidation, hemp] <;> omega

/- ── C9 ─────────────────────────────────────────────────────────────── -/

/-- C9: downmixing a sequence of complete `ch`-channel frames produces,
per frame, exactly the arithmetic mean of that frame's channel samples. -/
theorem C9_theorem (frames : List (List ℚ)) (ch : ℕ) (hch : 0 < ch)
    (hlen : ∀ f ∈ frames, f.length = ch) :
    downmix frames.flatten ch = frames.map (fun f => f.sum / (ch : ℚ)) := by
  induction frames with
  | nil => simp [downmix, chunksL]
  | cons f fs ih =>
    have hf : f.length = ch := hlen f (by simp)
    have hfs : ∀ g ∈ fs, g.length = ch := fun g hg => hlen g (by simp [hg])
    have hfne : f ≠ [] := by
      intro hc; rw [hc] at hf; simp at hf; omega
    have hne : f ++ fs.flatten ≠ [] := by
      intro hc
      rcases List.append_eq_nil.mp hc with ⟨h1, _⟩
      exact hfne h1
    simp only [List.flatten_cons, downmix]
    rw [chunksL]
    rw [dif_neg (by push_neg; exact ⟨by omega, hne⟩)]
    rw [← hf, List.take_left, List.drop_left]
    simp only [List.map_cons]
    have := ih hfs
    simp only [downmix] at this
    rw [hf, this]

/-- C9 witness: the stereo frame `[1, 3]` downmixes to exactly `2`. -/
theorem C9_witness :
    (0 : ℕ) < 2 ∧ downmix [(1 : ℚ), 3] 2 = [2] := by
  refine ⟨by decide, ?_⟩
  have h := C9_theorem [[(1 : ℚ), 3]] 2 (by decide) (by
    intro f hf
    simp at hf
    simp [hf])
  rw [show List.flatten [[(1 : ℚ), 3]] = [1, 3] from rfl] at h
  rw [h]
  norm_num [List.sum_cons, List.sum_nil]

/- ── model.rs ───────────────────────────────────────────────────────── -/

/-- The `MAX_RETRIES` from `model.rs`. -/
def MAX_RETRIES : ℕ := 3

/-- The `BACKOFF_SECS` from `model.rs`. -/
def BACKOFF_SECS : List ℕ := [1, 2, 4]

/-- The `min_model_size` from `model.rs` (the source's `match` rendered as an
if-chain on the same string literals). -/
def min_model_size (model : String) : ℕ :=
  if model = "tiny" then 50000000
  else if model = "base" then 100000000
  else if model = "small" then 300000000
  else if model = "medium" then 1000000000
  else if model = "large-v3" then 2000000000
  else 0

/-- The `model_filename` from `model.rs`. -/
def model_filename (size : String) : String := "ggml-" ++ size ++ ".bin"

/-- The download URL built by `download_model`. -/
def model_url (size : String) : String :=
  "https://huggingface.co/ggerganov/whisper.cpp/resolve/main/ggml-" ++
    size ++ ".bin"

/-- The cache path `~/.cache/whisper-models/ggml-<size>.bin`. -/
def cached_path (size : String) : String :=
  "~/.cache/whisper-models/" ++ model_filename size

/-- The `dest.with_extension("part")`: the `.bin` extension swapped for
`.part` (exact for the dot-free variant names the program uses). -/
def tmp_path (size : String) : String :=
  "~/.cache/whisper-models/ggml-" ++ size ++ ".part"

/-- The `#[error(...)]` display string of each `ModelError` variant, which
is what `format!("{e:#}")` produces for the retry loop's `last_err`
(`CacheDirCreation` appends its `#[source]` io message). -/
def errFormat : ModelError → String
  | .NoCacheDir => "Cannot determine home/cache directory"
  | .InsufficientDiskSpace => "Insufficient disk space for model download"
  | .DownloadFailed a r =>
      "Failed to download model after " ++ toString a ++ " attempts: " ++ r
  | .HttpError s u => "HTTP error " ++ toString s ++
      " downloading model from " ++ u
  | .Timeout s => "Download timed out after " ++ toString s ++ "s"
  | .FileTooSmall sz exp m => "Model file too small (" ++ toString sz ++
      " bytes) — expected at least " ++ toString exp ++ " bytes for " ++
      m ++ " model"
  | .LoadFailed m => "Failed to load Whisper model: " ++ m
  | .InvalidPath p => "Model path is not valid UTF-8: " ++ p
  | .CacheDirCreation p s =>
      "Cannot create cache directory: " ++ p ++ ": " ++ s
  | .RenameFailed m => "Cannot rename temp file to final path: " ++ m

/-- Observable filesystem / scheduling events of the model provisioner. -/
inductive Ev where
  | attemptStart (n : ℕ)
  | cleanupTemp
  | sleep (secs : ℕ)
  | createdTmp
  | removedTmp
  | renamedToDest
  | removedCached
deriving DecidableEq

/-- Outcome of `client.get(&url).send()`. -/
inductive SendResult where
  | timeout
  | sendErr (msg : String)
  | resp (status : ℕ)
deriving DecidableEq

/-- Environment of one `download_model` call: every fallible external
effect it performs, in program order. -/
structure DlEnv where
  clientBuildErr : Option String
  send : SendResult
  createTmpErr : Option String
  copyErr : Option String
  flushErr : Option String
  tmpMeta : Option ℕ
  renameErr : Option String

/-- The `download_model` from `model.rs`, as a function of its effect
environment, returning the event trace and the result.  The size check
reads `fs::metadata(&tmp).map(|m| m.len()).unwrap_or(0)`; the source's
`if min > 0 { if actual < min { … } }` falls through to the rename in
both negative cases, rendered here as a single conjunction. -/
def download_model (size : String) (env : DlEnv) :
    List Ev × Except ModelError Unit :=
  match env.clientBuildErr with
  | some m => ([], .error (.DownloadFailed 1 ("Cannot build HTTP client: " ++ m)))
  | none =>
    match env.send with
    | .timeout => ([], .error (.Timeout 600))
    | .sendErr m => ([], .error (.DownloadFailed 1 m))
    | .resp status =>
      if ¬(200 ≤ status ∧ status ≤ 299) then
        ([], .error (.HttpError status (model_url size)))
      else
        match env.createTmpErr with
        | some m => ([], .error (.CacheDirCreation (tmp_path size) m))
        | none =>
          match env.copyErr with
          | some m => ([.createdTmp],
              .error (.DownloadFailed 1 ("I/O error during download: " ++ m)))
          | none =>
            match env.flushErr with
            | some m => ([.createdTmp],
                .error (.DownloadFailed 1 ("Flush failed: " ++ m)))
            | none =>
              let min := min_model_size size
              let actual := env.tmpMeta.getD 0
              if 0 < min ∧ actual < min then
                ([.createdTmp, .removedTmp],
                  .error (.FileTooSmall actual min size))
              else
                match env.renameErr with
                | some m => ([.createdTmp], .error (.RenameFailed m))
                | none => ([.createdTmp, .renamedToDest], .ok ())

/-- The backoff delay before the attempt following failed attempt `n`:
`BACKOFF_SECS.get(attempt - 1).copied().unwrap_or(4)`. -/
def backoffDelay (n : ℕ) : ℕ := BACKOFF_SECS.getD (n - 1) 4

/-- The `for attempt in 1..=MAX_RETRIES` loop of
`download_model_with_retry`, iterating over the remaining attempt
numbers.  After every failed attempt the partial temp file is removed
(`cleanupTemp`); between attempts the thread sleeps the backoff delay;
after the last failed attempt the loop exits with
`DownloadFailed{attempts: MAX_RETRIES, reason: last_err}`. -/
def retryGo (outcome : ℕ → List Ev × Except ModelError Unit) :
    List ℕ → String → List Ev × Except ModelError Unit
  | [], lastErr => ([], .error (.DownloadFailed MAX_RETRIES lastErr))
  | n :: rest, _ =>
    match (outcome n).2 with
    | .ok _ => (Ev.attemptStart n :: (outcome n).1, .ok ())
    | .error e =>
      if rest.isEmpty then
        (Ev.attemptStart n :: (outcome n).1 ++ [Ev.cleanupTemp],
          .error (.DownloadFailed MAX_RETRIES (errFormat e)))
      else
        let r := retryGo outcome rest (errFormat e)
        (Ev.attemptStart n :: (outcome n).1 ++
          [Ev.cleanupTemp, Ev.sleep (backoffDelay n)] ++ r.1, r.2)

/-- The `download_model_with_retry` from `model.rs`: the retry loop over
attempts 1, …, `MAX_RETRIES`, each attempt running `download_model` in
its per-attempt environment. -/
def download_model_with_retry (size : String) (dlenv : ℕ → DlEnv) :
    List Ev × Except ModelError Unit :=
  retryGo (fun n => download_model size (dlenv n))
    (List.range' 1 MAX_RETRIES) ""

/-- Environment of one `resolve_model` call. -/
structure ResolveEnv where
  bundledExists : Bool
  bundledLegacyExists : Bool
  homeDirOk : Bool
  createCacheDirErr : Option String
  cachedIsFile : Bool
  cachedMeta : Option ℕ
  dl : ℕ → DlEnv

/-- Path of the bundled model next to the executable. -/
def bundled_path (size : String) : String :=
  "<exe_dir>/model/" ++ model_filename size

/-- Legacy bundled layout `<exe_dir>/model/model.bin`. -/
def bundled_legacy_path : String := "<exe_dir>/model/model.bin"

/-- The `resolve_model` from `model.rs`: bundled model, then cache (with the
size validation that deletes an undersized cached file and falls through
to the download-with-retry), then download. -/
def resolve_model (size : String) (env : ResolveEnv) :
    List Ev × Except ModelError (String × Bool) :=
  if env.bundledExists then ([], .ok (bundled_path size, true))
  else if env.bundledLegacyExists then ([], .ok (bundled_legacy_path, true))
  else if ¬env.homeDirOk then ([], .error .NoCacheDir)
  else
    match env.createCacheDirErr with
    | some m =>
        ([], .error (.CacheDirCreation "~/.cache/whisper-models" m))
    | none =>
      let doDownload : List Ev → List Ev × Except ModelError (String × Bool) :=
        fun pre =>
          let r := download_model_with_retry size env.dl
          (pre ++ r.1, r.2.map (fun _ => (cached_path size, false)))
      if env.cachedIsFile then
        match env.cachedMeta with
        | some len =>
          let min := min_model_size size
          if 0 < min ∧ len < min then doDownload [Ev.removedCached]
          else ([], .ok (cached_path size, false))
        | none => ([], .ok (cached_path size, false))
      else doDownload []

/- ── C3 ─────────────────────────────────────────────────────────────── -/

/-- Counts the attempt events of a trace. -/
def countAttempts (tr : List Ev) : ℕ :=
  tr.countP (fun e => match e with | Ev.attemptStart _ => true | _ => false)

theorem countAttempts_download_model (size : String) (env : DlEnv) :
    countAttempts (download_model size env).1 = 0 := by
  unfold download_model countAttempts
  rcases env with ⟨cb, send, ct, cp, fl, tm, rn⟩
  rcases cb with _ | m
  · rcases send with _ | m | status
    · rfl
    · rfl
    · dsimp only
      by_cases hst : ¬(200 ≤ status ∧ status ≤ 299)
      · rw [if_pos hst]; rfl
      · rw [if_neg hst]
        rcases ct with _ | m
        · rcases cp with _ | m
          · rcases fl with _ | m
            · dsimp only
              by_cases hsz : 0 < min_model_size size ∧
                  (tm.getD 0) < min_model_size size
              · rw [if_pos hsz]; rfl
              · rw [if_neg hsz]
                rcases rn with _ | m <;> rfl
            · rfl
          · rfl
        · rfl
  · rfl

theorem countAttempts_cons_attempt (n : ℕ) (l : List Ev) :
    countAttempts (Ev.attemptStart n :: l) = countAttempts l + 1 := by
  simp [countAttempts, List.countP_cons]

theorem countAttempts_append (l1 l2 : List Ev) :
    countAttempts (l1 ++ l2) = countAttempts l1 + countAttempts l2 := by
  simp [countAttempts, List.countP_append]

theorem countAttempts_retryGo
    (outcome : ℕ → List Ev × Except ModelError Unit)
    (h0 : ∀ n, countAttempts (outcome n).1 = 0) :
    ∀ (l : List ℕ) (lastErr : String),
      countAttempts (retryGo outcome l lastErr).1 ≤ l.length
  | [], _ => by simp [retryGo, countAttempts]
  | n :: rest, lastErr => by
    have ih := countAttempts_retryGo outcome h0 rest
    unfold retryGo
    cases hres : (outcome n).2 with
    | ok u =>
      rw [countAttempts_cons_attempt, h0 n]
      simp
    | error e =>
      cases hrest : rest.isEmpty with
      | true =>
        simp only [hrest, if_true]
        rw [countAttempts_append, countAttempts_cons_attempt, h0 n]
        have hc : countAttempts [Ev.cleanupTemp] = 0 := rfl
        rw [hc]
        simp
      | false =>
        simp only [hrest, Bool.false_eq_true, if_false]
        have h2 := ih (errFormat e)
        rw [countAttempts_append, countAttempts_append,
          countAttempts_cons_attempt, h0 n]
        have hcs : countAttempts [Ev.cleanupTemp,
            Ev.sleep (backoffDelay n)] = 0 := rfl
        rw [hcs]
        simp only [List.length_cons]
        omega

/-- C3: the retry loop makes at most 3 attempts; a successful attempt
returns immediately; each failed attempt is followed by a temp-file
cleanup and, if another attempt follows, a backoff sleep of
`BACKOFF_SECS[attempt-1]` seconds (1 s after attempt 1, 2 s after
attempt 2, the last table entry 4 reused beyond the table); after the
third failed attempt the result is `DownloadFailed` with `attempts = 3`
and the formatted last failure reason.  The trace equations hold for
every failing `ModelError`, so `Timeout` and `HttpError` pass through
the same loop as any other retryable failure. -/
theorem C3_theorem (size : String) (dlenv : ℕ → DlEnv) :
    countAttempts (download_model_with_retry size dlenv).1 ≤ 3 ∧
    (backoffDelay 1 = 1 ∧ backoffDelay 2 = 2 ∧ backoffDelay 3 = 4 ∧
      ∀ n, 3 ≤ n → backoffDelay n = 4) ∧
    ((download_model size (dlenv 1)).2 = .ok () →
      download_model_with_retry size dlenv =
        (Ev.attemptStart 1 :: (download_model size (dlenv 1)).1, .ok ())) ∧
    (∀ e1, (download_model size (dlenv 1)).2 = .error e1 →
      (download_model size (dlenv 2)).2 = .ok () →
      download_model_with_retry size dlenv =
        (Ev.attemptStart 1 :: (download_model size (dlenv 1)).1 ++
          [Ev.cleanupTemp, Ev.sleep 1] ++
          (Ev.attemptStart 2 :: (download_model size (dlenv 2)).1),
         .ok ())) ∧
    (∀ e1 e2, (download_model size (dlenv 1)).2 = .error e1 →
      (download_model size (dlenv 2)).2 = .error e2 →
      (download_model size (dlenv 3)).2 = .ok () →
      download_model_with_retry size dlenv =
        (Ev.attemptStart 1 :: (download_model size (dlenv 1)).1 ++
          [Ev.cleanupTemp, Ev.sleep 1] ++
          (Ev.attemptStart 2 :: (download_model size (dlenv 2)).1 ++
            [Ev.cleanupTemp, Ev.sleep 2] ++
            (Ev.attemptStart 3 :: (download_model size (dlenv 3)).1)),
         .ok ())) ∧
    (∀ e1 e2 e3, (download_model size (dlenv 1)).2 = .error e1 →
      (download_model size (dlenv 2)).2 = .error e2 →
      (download_model size (dlenv 3)).2 = .error e3 →
      download_model_with_retry size dlenv =
        (Ev.attemptStart 1 :: (download_model size (dlenv 1)).1 ++
          [Ev.cleanupTemp, Ev.sleep 1] ++
          (Ev.attemptStart 2 :: (download_model size (dlenv 2)).1 ++
            [Ev.cleanupTemp, Ev.sleep 2] ++
            (Ev.attemptStart 3 :: (download_model size (dlenv 3)).1 ++
              [Ev.cleanupTemp])),
         .error (.DownloadFailed 3 (errFormat e3)))) := by
  have hrange : List.range' 1 MAX_RETRIES = [1, 2, 3] := rfl
  refine ⟨?_, ⟨rfl, rfl, rfl, ?_⟩, ?_, ?_, ?_, ?_⟩
  · have h := countAttempts_retryGo
      (fun n => download_model size (dlenv n))
      (fun n => countAttempts_download_model size (dlenv n))
      (List.range' 1 MAX_RETRIES) ""
    simpa [download_model_with_retry, hrange] using h
  · intro n hn
    unfold backoffDelay BACKOFF_SECS
    match n, hn with
    | 3, _ => rfl
    | n + 4, _ =>
      have : n + 4 - 1 = n + 3 := by omega
      rw [this]
      rfl
  · intro h1
    unfold download_model_with_retry
    rw [hrange]
    unfold retryGo
    rw [h1]
  · intro e1 h1 h2
    unfold download_model_with_retry
    rw [hrange]
    unfold retryGo
    rw [h1]
    simp only [List.isEmpty_cons, if_false, Bool.false_eq_true]
    unfold retryGo
    rw [h2]
    rfl
  · intro e1 e2 h1 h2 h3
    unfold download_model_with_retry
    rw [hrange]
    unfold retryGo
    rw [h1]
    simp only [List.isEmpty_cons, if_false, Bool.false_eq_true]
    unfold retryGo
    rw [h2]
    simp only [List.isEmpty_cons, if_false, Bool.false_eq_true]
    unfold retryGo
    rw [h3]
    rfl
  · intro e1 e2 e3 h1 h2 h3
    unfold download_model_with_retry
    rw [hrange]
    unfold retryGo
    rw [h1]
    simp only [List.isEmpty_cons, if_false, Bool.false_eq_true]
    unfold retryGo
    rw [h2]
    simp only [List.isEmpty_cons, if_false, Bool.false_eq_true]
    unfold retryGo
    rw [h3]
    simp only [List.isEmpty_nil, if_true]
    rfl

/-- A download environment in which the HTTP request times out. -/
def dlEnvTimeout : DlEnv :=
  { clientBuildErr := none, send := .timeout, createTmpErr := none,
    copyErr := none, flushErr := none, tmpMeta := some 0,
    renameErr := none }

/-- C3 witness: three timeouts exhaust the loop at 3 attempts with the
backoff sleeps 1 s and 2 s and a `DownloadFailed` carrying the last
timeout's formatted reason. -/
theorem C3_witness :
    (download_model "tiny" dlEnvTimeout).2 =
      .error (ModelError.Timeout 600) ∧
    download_model_with_retry "tiny" (fun _ => dlEnvTimeout) =
      ([Ev.attemptStart 1, Ev.cleanupTemp, Ev.sleep 1,
        Ev.attemptStart 2, Ev.cleanupTemp, Ev.sleep 2,
        Ev.attemptStart 3, Ev.cleanupTemp],
       .error (ModelError.DownloadFailed 3
         "Download timed out after 600s")) := by
  refine ⟨rfl, ?_⟩
  have h := ( C3_theorem "tiny" (fun _ => dlEnvTimeout)).2.2.2.2.2
    (.Timeout 600) (.Timeout 600) (.Timeout 600) rfl rfl rfl
  rw [h]
  rfl

/- ── C4 / C10 ───────────────────────────────────────────────────────── -/

/-- Every `download_model` run is (i) the undersized-temp-file rejection,
(ii) the successful rename after the size check passed, or (iii) some
other failure that neither renames nor raises `FileTooSmall`. -/
theorem download_model_cases (size : String) (denv : DlEnv) :
    (download_model size denv = ([Ev.createdTmp, Ev.removedTmp],
        .error (.FileTooSmall (denv.tmpMeta.getD 0) (min_model_size size)
          size)) ∧
      0 < min_model_size size ∧
      denv.tmpMeta.getD 0 < min_model_size size) ∨
    (download_model size denv = ([Ev.createdTmp, Ev.renamedToDest],
        .ok ()) ∧
      ¬(0 < min_model_size size ∧
        denv.tmpMeta.getD 0 < min_model_size size)) ∨
    ((download_model size denv).2 ≠ .ok () ∧
      Ev.renamedToDest ∉ (download_model size denv).1 ∧
      ∀ a b m, (download_model size denv).2 ≠
        .error (.FileTooSmall a b m)) := by
  rcases denv with ⟨cb, send, ct, cp, fl, tm, rn⟩
  rcases cb with _ | m
  · rcases send with _ | m | status
    · exact Or.inr (Or.inr ⟨by simp [download_model],
        by simp [download_model], by simp [download_model]⟩)
    · exact Or.inr (Or.inr ⟨by simp [download_model],
        by simp [download_model], by simp [download_model]⟩)
    · by_cases hst : 200 ≤ status ∧ status ≤ 299
      · rcases ct with _ | m
        · rcases cp with _ | m
          · rcases fl with _ | m
            · by_cases hsz : 0 < min_model_size size ∧
                  (tm.getD 0) < min_model_size size
              · have heq : download_model size
                    ⟨none, .resp status, none, none, none, tm, rn⟩
                    = ([Ev.createdTmp, Ev.removedTmp],
                       .error (.FileTooSmall (tm.getD 0)
                         (min_model_size size) size)) := by
                  unfold download_model
                  dsimp only
                  rw [if_neg (by simpa using hst), if_pos hsz]
                exact Or.inl ⟨heq, hsz⟩
              · rcases rn with _ | m
                · have heq : download_model size
                      ⟨none, .resp status, none, none, none, tm, none⟩
                      = ([Ev.createdTmp, Ev.renamedToDest], .ok ()) := by
                    unfold download_model
                    dsimp only
                    rw [if_neg (by simpa using hst), if_neg hsz]
                  exact Or.inr (Or.inl ⟨heq, hsz⟩)
                · have heq : download_model size
                      ⟨none, .resp status, none, none, none, tm, some m⟩
                      = ([Ev.createdTmp], .error (.RenameFailed m)) := by
                    unfold download_model
                    dsimp only
                    rw [if_neg (by simpa using hst), if_neg hsz]
                  exact Or.inr (Or.inr ⟨by simp [heq], by simp [heq],
                    by simp [heq]⟩)
            · have heq : download_model size
                  ⟨none, .resp status, none, none, some m, tm, rn⟩
                  = ([Ev.createdTmp],
                     .error (.DownloadFailed 1 ("Flush failed: " ++ m)))
                  := by
                unfold download_model
                dsimp only
                rw [if_neg (by simpa using hst)]
              exact Or.inr (Or.inr ⟨by simp [heq], by simp [heq],
                by simp [heq]⟩)
          · have heq : download_model size
                ⟨none, .resp status, none, some m, fl, tm, rn⟩
                = ([Ev.createdTmp],
                   .error (.DownloadFailed 1
                     ("I/O error during download: " ++ m))) := by
              unfold download_model
              dsimp only
              rw [if_neg (by simpa using hst)]
            exact Or.inr (Or.inr ⟨by simp [heq], by simp [heq],
              by simp [heq]⟩)
        · have heq : download_model size
              ⟨none, .resp status, some m, cp, fl, tm, rn⟩
              = ([], .error (.CacheDirCreation (tmp_path size) m)) := by
            unfold download_model
            dsimp only
            rw [if_neg (by simpa using hst)]
          exact Or.inr (Or.inr ⟨by simp [heq], by simp [heq],
            by simp [heq]⟩)
      · have heq : download_model size
            ⟨none, .resp status, ct, cp, fl, tm, rn⟩
            = ([], .error (.HttpError status (model_url size))) := by
          unfold download_model
          dsimp only
          rw [if_pos hst]
        exact Or.inr (Or.inr ⟨by simp [heq], by simp [heq], by simp [heq]⟩)
  · exact Or.inr (Or.inr ⟨by simp [download_model],
      by simp [download_model], by simp [download_model]⟩)

/-- C4: an artifact below the variant's minimum size is never accepted —
`resolve_model` deletes an undersized cached file (readable metadata) and
falls through to the retrying download; `download_model` size-checks the
temp file before the rename, removing it and failing with `FileTooSmall`
when undersized; and the rename to the final cache path only ever happens
after the size check passed (threshold absent or met). -/
theorem C4_theorem (size : String) (env : ResolveEnv) (len : ℕ) :
    (env.bundledExists = false → env.bundledLegacyExists = false →
      env.homeDirOk = true → env.createCacheDirErr = none →
      env.cachedIsFile = true → env.cachedMeta = some len →
      0 < min_model_size size → len < min_model_size size →
      resolve_model size env =
        ([Ev.removedCached] ++ (download_model_with_retry size env.dl).1,
         (download_model_with_retry size env.dl).2.map
           (fun _ => (cached_path size, false)))) ∧
    (∀ (denv : DlEnv) (status : ℕ),
      denv.clientBuildErr = none → denv.send = .resp status →
      200 ≤ status → status ≤ 299 →
      denv.createTmpErr = none → denv.copyErr = none →
      denv.flushErr = none →
      0 < min_model_size size →
      denv.tmpMeta.getD 0 < min_model_size size →
      download_model size denv =
        ([Ev.createdTmp, Ev.removedTmp],
         .error (.FileTooSmall (denv.tmpMeta.getD 0)
           (min_model_size size) size))) ∧
    (∀ denv : DlEnv,
      Ev.renamedToDest ∈ (download_model size denv).1 →
      min_model_size size = 0 ∨
        min_model_size size ≤ denv.tmpMeta.getD 0) ∧
    (∀ denv : DlEnv, (download_model size denv).2 = .ok () →
      Ev.renamedToDest ∈ (download_model size denv).1) := by
  refine ⟨?_, ?_, ?_, ?_⟩
  · intro hb hbl hh hcd hci hcm hmin hlen
    simp [resolve_model, hb, hbl, hh, hcd, hci, hcm, hmin, hlen]
  · intro denv status hcb hsend h200 h299 hct hcp hfl hmin hsmall
    rcases denv with ⟨cb, send, ct, cp, fl, tm, rn⟩
    simp only at hcb hsend hct hcp hfl hsmall
    subst hcb hsend hct hcp hfl
    unfold download_model
    dsimp only
    rw [if_neg (by simp [h200, h299]), if_pos ⟨hmin, by simpa using hsmall⟩]
  · intro denv hmem
    rcases download_model_cases size denv with ⟨heq, _, _⟩ | ⟨heq, hn⟩ |
      ⟨_, hnm, _⟩
    · rw [heq] at hmem
      simp at hmem
    · rcases Nat.eq_zero_or_pos (min_model_size size) with h0 | hpos
      · exact Or.inl h0
      · right
        by_contra hc
        exact hn ⟨hpos, by omega⟩
    · exact absurd hmem hnm
  · intro denv hok
    rcases download_model_cases size denv with ⟨heq, _, _⟩ | ⟨heq, _⟩ |
      ⟨hne, _, _⟩
    · rw [heq] at hok
      simp at hok
    · rw [heq]
      simp
    · exact absurd hok hne

/-- A download environment representing a fully successful fetch of
`n` bytes. -/
def dlEnvFetched (n : ℕ) : DlEnv :=
  { clientBuildErr := none, send := .resp 200, createTmpErr := none,
    copyErr := none, flushErr := none, tmpMeta := some n,
    renameErr := none }

/-- A resolver environment with no bundled model and a cached file of
`n` bytes, whose downloads fetch `m` bytes. -/
def resolveEnvCached (n m : ℕ) : ResolveEnv :=
  { bundledExists := false, bundledLegacyExists := false,
    homeDirOk := true, createCacheDirErr := none, cachedIsFile := true,
    cachedMeta := some n, dl := fun _ => dlEnvFetched m }

/-- C4 witness: for the `tiny` variant (threshold 50 000 000), a 10-byte
cached file is deleted and re-downloaded, and a 10-byte fetched temp file
is removed with `FileTooSmall` raised. -/
theorem C4_witness :
    0 < min_model_size "tiny" ∧ (10 : ℕ) < min_model_size "tiny" ∧
    resolve_model "tiny" (resolveEnvCached 10 60000000) =
      ([Ev.removedCached] ++
        (download_model_with_retry "tiny"
          (resolveEnvCached 10 60000000).dl).1,
       (download_model_with_retry "tiny"
          (resolveEnvCached 10 60000000).dl).2.map
         (fun _ => (cached_path "tiny", false))) ∧
    download_model "tiny" (dlEnvFetched 10) =
      ([Ev.createdTmp, Ev.removedTmp],
       .error (.FileTooSmall 10 50000000 "tiny")) ∧
    (min_model_size "tiny" = 0 ∨
      min_model_size "tiny" ≤ (dlEnvFetched 60000000).tmpMeta.getD 0) ∧
    Ev.renamedToDest ∈ (download_model "tiny" (dlEnvFetched 60000000)).1
    := by
  refine ⟨by decide, by decide, ?_, ?_, ?_, ?_⟩
  · exact ( C4_theorem "tiny" (resolveEnvCached 10 60000000) 10).1
      rfl rfl rfl rfl rfl rfl (by decide) (by decide)
  · have h := ( C4_theorem "tiny" (resolveEnvCached 10 60000000) 10).2.1
      (dlEnvFetched 10) 200 rfl rfl (by decide) (by decide) rfl rfl rfl
      (by decide) (by decide)
    simpa using h
  · exact ( C4_theorem "tiny" (resolveEnvCached 10 60000000) 10).2.2.1
      (dlEnvFetched 60000000) (by decide)
  · exact ( C4_theorem "tiny" (resolveEnvCached 10 60000000) 10).2.2.2
      (dlEnvFetched 60000000) rfl

/-- C10: for a variant outside {tiny, base, small, medium, large-v3} the
minimum-size table returns 0 and the integrity check is skipped: a cached
file of any size (metadata `len`, including 0) is accepted by
`resolve_model`, a fresh download of any size is renamed and accepted,
and `FileTooSmall` can never be raised. -/
theorem C10_theorem (size : String)
    (hsz : size ∉ (["tiny", "base", "small", "medium", "large-v3"] :
      List String)) :
    min_model_size size = 0 ∧
    (∀ (env : ResolveEnv) (len : ℕ),
      env.bundledExists = false → env.bundledLegacyExists = false →
      env.homeDirOk = true → env.createCacheDirErr = none →
      env.cachedIsFile = true → env.cachedMeta = some len →
      resolve_model size env = ([], .ok (cached_path size, false))) ∧
    (∀ (denv : DlEnv) (a b : ℕ) (m : String),
      (download_model size denv).2 ≠ .error (.FileTooSmall a b m)) ∧
    (∀ (denv : DlEnv) (status : ℕ),
      denv.clientBuildErr = none → denv.send = .resp status →
      200 ≤ status → status ≤ 299 →
      denv.createTmpErr = none → denv.copyErr = none →
      denv.flushErr = none → denv.renameErr = none →
      download_model size denv =
        ([Ev.createdTmp, Ev.renamedToDest], .ok ())) := by
  simp only [List.mem_cons, List.mem_singleton, not_or] at hsz
  obtain ⟨h1, h2, h3, h4, h5, _⟩ := hsz
  have hmin : min_model_size size = 0 := by
    simp [min_model_size, h1, h2, h3, h4, h5]
  refine ⟨hmin, ?_, ?_, ?_⟩
  · intro env len hb hbl hh hcd hci hcm
    simp [resolve_model, hb, hbl, hh, hcd, hci, hcm, hmin]
  · intro denv a b m
    rcases download_model_cases size denv with ⟨_, hpos, _⟩ | ⟨heq, _⟩ |
      ⟨_, _, hnfts⟩
    · rw [hmin] at hpos
      omega
    · rw [heq]
      simp
    · exact hnfts a b m
  · intro denv status hcb hsend h200 h299 hct hcp hfl hrn
    rcases denv with ⟨cb, send, ct, cp, fl, tm, rn⟩
    simp only at hcb hsend hct hcp hfl hrn
    subst hcb hsend hct hcp hfl hrn
    unfold download_model
    dsimp only
    rw [if_neg (by simp [h200, h299]), if_neg (by simp [hmin])]

/-- C10 witness: the unknown variant `huge` has threshold 0; an empty
(0-byte) cached file is accepted, and a 0-byte fresh download is renamed
and accepted. -/
theorem C10_witness :
    ("huge" ∉ (["tiny", "base", "small", "medium", "large-v3"] :
      List String)) ∧
    min_model_size "huge" = 0 ∧
    resolve_model "huge" (resolveEnvCached 0 0) =
      ([], .ok (cached_path "huge", false)) ∧
    download_model "huge" (dlEnvFetched 0) =
      ([Ev.createdTmp, Ev.renamedToDest], .ok ()) := by
  have h := C10_theorem "huge" (by decide)
  refine ⟨by decide, h.1, ?_, ?_⟩
  · exact h.2.1 (resolveEnvCached 0 0) 0 rfl rfl rfl rfl rfl rfl
  · exact h.2.2.2 (dlEnvFetched 0) 200 rfl rfl (by decide) (by decide)
      rfl rfl rfl rfl

/- ── transcribe.rs: segment collection ─────────────────────────────── -/

/-- A raw engine-reported segment: text and start/end times in
centiseconds (the engine's `i64`s, modelled as ℤ). -/
structure RawSeg where
  text : String
  t0 : ℤ
  t1 : ℤ
deriving DecidableEq

/-- The `Segment` from `transcribe.rs` (times in seconds; the Rust field
`end` is named `stop` here because `end` is a Lean keyword). -/
structure Segment where
  start : ℚ
  stop : ℚ
  text : String
deriving DecidableEq

/-- Rust `str::trim` on a `String`. -/
def trimString (s : String) : String := String.mk (trimL s.toList)

/-- The conversion applied to an accepted segment: centiseconds to
seconds by division by 100, text trimmed. -/
def convertSeg (r : RawSeg) : Segment :=
  ⟨(r.t0 : ℚ) / 100, (r.t1 : ℚ) / 100, trimString r.text⟩

/-- The acceptance predicate of the collection loop (negation of the
three skip conditions, in source order). -/
def keepSeg (r : RawSeg) : Bool :=
  decide (¬(r.t0 < 0 ∨ r.t1 < 0) ∧ ¬(r.t1 < r.t0) ∧ trimString r.text ≠ "")

/-- The segment-collection loop of `run` (`transcribe.rs` lines 111-147):
per raw segment, skip (counting) on a negative timestamp, then on
inverted timestamps, then on whitespace-only text; otherwise push the
converted segment.  Returns the accepted segments and the skip count. -/
def collect_segments : List RawSeg → List Segment × ℕ
  | [] => ([], 0)
  | r :: rest =>
    let res := collect_segments rest
    if r.t0 < 0 ∨ r.t1 < 0 then (res.1, res.2 + 1)
    else if r.t1 < r.t0 then (res.1, res.2 + 1)
    else if trimString r.text = "" then (res.1, res.2 + 1)
    else (convertSeg r :: res.1, res.2)

/- ── errors.rs: exit codes ─────────────────────────────────────────── -/

/-- One cause in an error chain: a typed error of one of the four stage
taxonomies, or a foreign cause no downcast recognizes. -/
inductive ErrCause where
  | audio (e : AudioError)
  | model (e : ModelError)
  | transcription (e : TranscriptionError)
  | output (e : OutputError)
  | other
deriving DecidableEq

/-- The `AudioError` arm of `ExitCode::from_error`. -/
def audioCode : AudioError → ℕ
  | .FileOpen _ _ | .UnsupportedFormat => 10
  | .NoTrack | .UnsupportedCodec | .DecodeError _ => 11
  | .EmptyAudio | .TooShort _ | .TooLong _ => 12

/-- The `ModelError` arm of `ExitCode::from_error`. -/
def modelCode : ModelError → ℕ
  | .NoCacheDir | .CacheDirCreation _ _ => 20
  | .InsufficientDiskSpace | .DownloadFailed _ _ | .HttpError _ _
  | .Timeout _ => 21
  | .FileTooSmall _ _ _ => 22
  | .LoadFailed _ | .InvalidPath _ | .RenameFailed _ => 23

/-- The per-cause classification of `ExitCode::from_error`'s loop body:
`some code` when a downcast succeeds, `none` otherwise. -/
def classify : ErrCause → Option ℕ
  | .audio e => some (audioCode e)
  | .model e => some (modelCode e)
  | .transcription _ => some 30
  | .output _ => some 40
  | .other => none

/-- The `ExitCode::from_error` from `errors.rs`: walk the cause chain and
return the code of the first recognized cause, 99 (`UNKNOWN`) if none. -/
def from_error : List ErrCause → ℕ
  | [] => 99
  | c :: rest =>
    match classify c with
    | some code => code
    | none => from_error rest

/- ── transcribe.rs: output writing ─────────────────────────────────── -/

/-- Rust `{:02}` on an unsigned integer: zero-padded to width two. -/
def pad2 (n : ℕ) : String := if n < 10 then "0" ++ toString n else toString n

/-- The `seg.start as u64`: an f64 timestamp truncated to whole seconds
(timestamps here are ≥ 0; a negative value would saturate to 0 exactly
as Rust's `as` cast does). -/
def tsecs (t : ℚ) : ℕ := t.floor.toNat

/-- One `[MM:SS -> MM:SS]  <text>` line of the timestamped section, with
minutes/seconds by integer division/modulo of the truncated timestamp. -/
def segment_line (s : Segment) : String :=
  "[" ++ pad2 (tsecs s.start / 60) ++ ":" ++ pad2 (tsecs s.start % 60) ++
  " -> " ++ pad2 (tsecs s.stop / 60) ++ ":" ++ pad2 (tsecs s.stop % 60) ++
  "]  " ++ s.text ++ "\n"

/-- Rust `{:.1}` on a nonnegative f64 duration, idealized over ℚ:
round to the nearest tenth and print one decimal digit. -/
def formatDuration1 (d : ℚ) : String :=
  let t := (round (d * 10)).toNat
  toString (t / 10) ++ "." ++ toString (t % 10)

/-- The `write_output` from `transcribe.rs`, modelled as the full text the
writes produce (the path/file handling and `OutputError` wrapping carry
no content).  `source` is passed as its displayed file name. -/
def write_output (sourceName modelSize : String) (duration : ℚ)
    (segments : List Segment) : String :=
  if segments = [] then "No speech detected in the audio.\n"
  else
    "=== TRANSCRIPT (Turkish) ===\n" ++
    "Source: " ++ sourceName ++ "\n" ++
    "Model: whisper-" ++ modelSize ++ "\n" ++
    "Duration: " ++ formatDuration1 duration ++ "s\n" ++
    String.mk (List.replicate 40 '=') ++ "\n" ++
    "\n" ++
    String.intercalate " " (segments.map (fun s => s.text)) ++ "\n\n" ++
    "=== TIMESTAMPED ===\n\n" ++
    String.join (segments.map segment_line)

/- ── C6 ─────────────────────────────────────────────────────────────── -/

theorem collect_segments_eq (raw : List RawSeg) :
    collect_segments raw =
      ((raw.filter keepSeg).map convertSeg,
       (raw.filter (fun r => !keepSeg r)).length) := by
  induction raw with
  | nil => rfl
  | cons r rest ih =>
    by_cases h1 : r.t0 < 0 ∨ r.t1 < 0
    · have hk : keepSeg r = false := by simp [keepSeg, h1]
      simp only [collect_segments, ih, if_pos h1, List.filter_cons, hk]
      simp
    · by_cases h2 : r.t1 < r.t0
      · have hk : keepSeg r = false := by simp [keepSeg, h2]
        simp only [collect_segments, ih, if_neg h1, if_pos h2,
          List.filter_cons, hk]
        simp
      · by_cases h3 : trimString r.text = ""
        · have hk : keepSeg r = false := by simp [keepSeg, h3]
          simp only [collect_segments, ih, if_neg h1, if_neg h2, if_pos h3,
            List.filter_cons, hk]
          simp
        · have hk : keepSeg r = true := by simp [keepSeg, h1, h2, h3]
          simp only [collect_segments, ih, if_neg h1, if_neg h2, if_neg h3,
            List.filter_cons, hk]
          simp

/-- C6: the collection loop reads the engine-reported segments in order,
converts centiseconds to seconds by division by 100, and skips — counting
each skip, never failing — exactly those with a negative timestamp, an
inverted timestamp pair, or whitespace-only text (the three checks in
that order); the accepted segments are the kept ones in original order,
and each satisfies `0 ≤ start ≤ stop` with non-empty trimmed text. -/
theorem C6_theorem (raw : List RawSeg) :
    collect_segments raw =
      ((raw.filter keepSeg).map convertSeg,
       (raw.filter (fun r => !keepSeg r)).length) ∧
    (∀ s ∈ (collect_segments raw).1,
      0 ≤ s.start ∧ s.start ≤ s.stop ∧ s.text ≠ "") := by
  refine ⟨collect_segments_eq raw, ?_⟩
  intro s hs
  rw [collect_segments_eq raw] at hs
  simp only [List.mem_map, List.mem_filter] at hs
  obtain ⟨r, ⟨_, hk⟩, hconv⟩ := hs
  simp only [keepSeg, decide_eq_true_eq, not_or, not_lt] at hk
  obtain ⟨⟨h0, h1⟩, h2, h3⟩ := hk
  subst hconv
  refine ⟨?_, ?_, h3⟩
  · have h0' : (0 : ℚ) ≤ (r.t0 : ℚ) := by exact_mod_cast h0
    exact div_nonneg h0' (by norm_num)
  · have hle : (r.t0 : ℚ) ≤ (r.t1 : ℚ) := by exact_mod_cast h2
    exact div_le_div_of_nonneg_right hle (by norm_num)

/-- C6 witness: of two raw segments, the well-formed one (1.00 s to
2.50 s, text trimmed to `hello`) is kept and the negative-timestamp one
is skipped and counted; the kept segment satisfies the invariants. -/
theorem C6_witness :
    collect_segments [⟨" hello ", 100, 250⟩, ⟨"x", -1, 5⟩] =
      ([⟨1, 5/2, "hello"⟩], 1) ∧
    ((⟨1, 5/2, "hello"⟩ : Segment) ∈
      (collect_segments [⟨" hello ", 100, 250⟩, ⟨"x", -1, 5⟩]).1) ∧
    (0 ≤ (1 : ℚ) ∧ (1 : ℚ) ≤ 5/2 ∧ ("hello" : String) ≠ "") := by
  have ht : trimString " hello " = "hello" := by decide
  have hconv : convertSeg ⟨" hello ", 100, 250⟩ =
      (⟨1, 5/2, "hello"⟩ : Segment) := by
    simp only [convertSeg, ht]
    norm_num
  have heq : collect_segments [⟨" hello ", 100, 250⟩, ⟨"x", -1, 5⟩] =
      ([⟨1, 5/2, "hello"⟩], 1) := by
    simp only [collect_segments]
    rw [if_pos (by norm_num : ((-1 : ℤ) < 0 ∨ (5 : ℤ) < 0))]
    rw [if_neg (by norm_num : ¬((100 : ℤ) < 0 ∨ (250 : ℤ) < 0)),
      if_neg (by norm_num : ¬((250 : ℤ) < (100 : ℤ))),
      if_neg (by rw [ht]; simp), hconv]
  refine ⟨heq, by rw [heq]; simp, ?_⟩
  exact ( C6_theorem [⟨" hello ", 100, 250⟩, ⟨"x", -1, 5⟩]).2
    ⟨1, 5/2, "hello"⟩ (by rw [heq]; simp)

/- ── C7 ─────────────────────────────────────────────────────────────── -/

theorem classify_ne_some_99 (c : ErrCause) : classify c ≠ some 99 := by
  rcases c with e | e | e | e
  · rcases e <;> simp [classify, audioCode]
  · rcases e <;> simp [classify, modelCode]
  · simp [classify]
  · simp [classify]
  · simp [classify]

theorem from_error_eq_findSome (chain : List ErrCause) :
    from_error chain = (chain.findSome? classify).getD 99 := by
  induction chain with
  | nil => rfl
  | cons c rest ih =>
    cases hc : classify c with
    | some k => simp [from_error, List.findSome?_cons, hc]
    | none => simp [from_error, List.findSome?_cons, hc, ih]

theorem from_error_unknown_iff (chain : List ErrCause) :
    from_error chain = 99 ↔ ∀ c ∈ chain, classify c = none := by
  induction chain with
  | nil => simp [from_error]
  | cons c rest ih =>
    cases hc : classify c with
    | some k =>
      have hne : k ≠ 99 := by
        intro hk
        exact classify_ne_some_99 c (hk ▸ hc)
      simp [from_error, hc, hne]
    | none => simp [from_error, hc, ih]

/-- C7: `ExitCode::from_error` is a pure function of the cause chain
returning the family code of the first recognized cause — audio-input 10,
audio-decode 11, audio-validation 12, model-not-found 20, model-download
21, model-integrity 22, model-load 23, transcription 30, output-write 40
— and 99 exactly when no cause in the chain is recognized; in particular
`ModelError::LoadFailed` classifies as model-load 23, not transcription
30. -/
theorem C7_theorem :
    (∀ chain : List ErrCause,
      from_error chain = (chain.findSome? classify).getD 99) ∧
    (∀ chain : List ErrCause,
      (from_error chain = 99 ↔ ∀ c ∈ chain, classify c = none)) ∧
    ((∀ p s, classify (.audio (.FileOpen p s)) = some 10) ∧
      classify (.audio .UnsupportedFormat) = some 10) ∧
    (classify (.audio .NoTrack) = some 11 ∧
      classify (.audio .UnsupportedCodec) = some 11 ∧
      ∀ m, classify (.audio (.DecodeError m)) = some 11) ∧
    (classify (.audio .EmptyAudio) = some 12 ∧
      (∀ d, classify (.audio (.TooShort d)) = some 12) ∧
      ∀ d, classify (.audio (.TooLong d)) = some 12) ∧
    (classify (.model .NoCacheDir) = some 20 ∧
      ∀ p s, classify (.model (.CacheDirCreation p s)) = some 20) ∧
    (classify (.model .InsufficientDiskSpace) = some 21 ∧
      (∀ a r, classify (.model (.DownloadFailed a r)) = some 21) ∧
      (∀ s u, classify (.model (.HttpError s u)) = some 21) ∧
      ∀ s, classify (.model (.Timeout s)) = some 21) ∧
    (∀ a b m, classify (.model (.FileTooSmall a b m)) = some 22) ∧
    ((∀ m, classify (.model (.LoadFailed m)) = some 23) ∧
      (∀ p, classify (.model (.InvalidPath p)) = some 23) ∧
      ∀ m, classify (.model (.RenameFailed m)) = some 23) ∧
    (∀ e : TranscriptionError, classify (.transcription e) = some 30) ∧
    (∀ e : OutputError, classify (.output e) = some 40) ∧
    classify .other = none ∧
    (∀ (m : String) (rest : List ErrCause),
      from_error (.model (.LoadFailed m) :: rest) = 23) := by
  refine ⟨from_error_eq_findSome, from_error_unknown_iff,
    ⟨fun p s => rfl, rfl⟩, ⟨rfl, rfl, fun m => rfl⟩,
    ⟨rfl, fun d => rfl, fun d => rfl⟩, ⟨rfl, fun p s => rfl⟩,
    ⟨rfl, fun a r => rfl, fun s u => rfl, fun s => rfl⟩,
    fun a b m => rfl, ⟨fun m => rfl, fun p => rfl, fun m => rfl⟩,
    fun e => rfl, fun e => rfl, rfl, fun m rest => rfl⟩

/- ── C8 ─────────────────────────────────────────────────────────────── -/

/-- C8: an empty segment list writes exactly the sentinel line and
nothing else; a non-empty list writes the header block (title, source
name, model label, duration to one decimal, separator), the space-joined
full text plus a blank line, the section header, and one
`[MM:SS -> MM:SS]  <text>` line per segment with zero-padded two-digit
minutes/seconds from integer division/modulo of the truncated timestamp
(e.g. 125 s → `02:05`). -/
theorem C8_theorem (src modelSize : String) (d : ℚ) :
    (write_output src modelSize d [] = "No speech detected in the audio.\n") ∧
    (∀ (s0 : Segment) (rest : List Segment),
      write_output src modelSize d (s0 :: rest) =
        "=== TRANSCRIPT (Turkish) ===\n" ++
        "Source: " ++ src ++ "\n" ++
        "Model: whisper-" ++ modelSize ++ "\n" ++
        "Duration: " ++ formatDuration1 d ++ "s\n" ++
        String.mk (List.replicate 40 '=') ++ "\n" ++
        "\n" ++
        String.intercalate " " ((s0 :: rest).map (fun s => s.text)) ++
        "\n\n" ++
        "=== TIMESTAMPED ===\n\n" ++
        String.join ((s0 :: rest).map segment_line)) ∧
    (∀ s : Segment, segment_line s =
      "[" ++ pad2 (tsecs s.start / 60) ++ ":" ++ pad2 (tsecs s.start % 60)
      ++ " -> " ++ pad2 (tsecs s.stop / 60) ++ ":" ++
      pad2 (tsecs s.stop % 60) ++ "]  " ++ s.text ++ "\n") ∧
    segment_line ⟨125, 125, "x"⟩ = "[02:05 -> 02:05]  x\n" := by
  refine ⟨rfl, fun s0 rest => ?_, fun s => rfl, by decide⟩
  rw [write_output, if_neg (by simp)]

end TurkishTranscriber
